import Mathlib

/-!
# Verification of the Real-Estate-Game engine

A shallow embedding of `RealEstateGame.py` (classes `RealEstateGame`,
`Player`, `BoardSpace`/`PropertySpace`/`GoSpace`) together with proofs of
the specification claims about it.

Modelling choices:
* Python integers become `Int`.
* Python objects of class `Player` are modelled by value records stored in a
  list `objs`; a *reference* to a player object is the object's index in that
  list.  This models Python reference/identity semantics faithfully: the dict
  `self._players` maps a name to an object reference, and a property space's
  `_owner` attribute holds an object reference which survives even if the
  name is later re-bound to a fresh object by `create_player`.
* Python dicts (insertion ordered, overwrite keeps the original slot) are
  modelled by association lists with an insert-or-update operation.
* Fallible code (KeyError on dict lookup, IndexError on list indexing,
  AttributeError on a missing method) returns `Except Err`.
-/

namespace REG

/-- A player object: mirrors the Python `Player` class; `__init__` stores the
name and starting balance and sets the position to 0. -/
structure Player where
  name : String
  account_balance : Int
  position : Int
deriving Repr, DecidableEq

/-- A board space: `BoardSpace` has exactly the two subclasses `GoSpace`
(payout amount) and `PropertySpace` (rent plus `_owner`, initially `None`).
An owner is a reference (index into the game state's object list). -/
inductive Space where
  | go (payout_amount : Int)
  | property (rent : Int) (owner : Option Nat)
deriving Repr, DecidableEq

/-- Errors of the Python runtime that the engine can raise. -/
inductive Err where
  | notFound
  | indexError
  | attributeError
deriving Repr, DecidableEq

/-- `Player.get_account_balance`. -/
def Player.get_account_balance (p : Player) : Int :=
  p.account_balance

/-- `Player.get_position`. -/
def Player.get_position (p : Player) : Int :=
  p.position

/-- `Player.add_account_balance`: `self._account_balance += amount`. -/
def Player.add_account_balance (p : Player) (amount : Int) : Player :=
  { p with account_balance := p.account_balance + amount }

/-- `Player.sub_account_balance`: clamps at zero when the subtracted amount
would drop the balance below zero (`if amount - self._account_balance > 0`). -/
def Player.sub_account_balance (p : Player) (amount : Int) : Player :=
  if amount - p.account_balance > 0 then { p with account_balance := 0 }
  else { p with account_balance := p.account_balance - amount }

/-- `Player.move_player`: `self._position += number_of_spaces`, then one
conditional subtraction of `board_size` when the result is `>= board_size`. -/
def Player.move_player (p : Player) (number_of_spaces board_size : Int) : Player :=
  let position := p.position + number_of_spaces
  if position ≥ board_size then { p with position := position - board_size }
  else { p with position := position }

/-- `BoardSpace.get_space_type`. -/
def Space.get_space_type : Space → String
  | Space.go _ => "GO"
  | Space.property _ _ => "Property"

/-- `GoSpace.get_payout_amount`; a `PropertySpace` has no such method, so
calling it there is an `AttributeError`, modelled by `none`. -/
def Space.get_payout_amount : Space → Option Int
  | Space.go payout => some payout
  | Space.property _ _ => none

/-- `PropertySpace.get_owner`, extended by `none` on the GO space (which has
no owner concept); used only to state theorems, the engine code below matches
on the space directly exactly where Python's short-circuit guards allow the
call. -/
def Space.spaceOwner : Space → Option Nat
  | Space.go _ => none
  | Space.property _ owner => owner

/-- Python list indexing `l[i]`: non-negative indices from the front,
negative indices from the back, out of range is an IndexError (`none`). -/
def pyIndex (l : List α) (i : Int) : Option α :=
  if 0 ≤ i then l.get? i.toNat
  else if 0 ≤ i + l.length then l.get? (i + l.length).toNat
  else none

/-- Python list element assignment `l[i] = v` for a non-negative index that
was already validated by a successful read at the same index. -/
def pySet (l : List α) (i : Int) (v : α) : List α :=
  if 0 ≤ i then l.set i.toNat v else l.set (i + l.length).toNat v

/-- Lookup in a Python dict modelled as an association list. -/
def dictLookup (d : List (String × Nat)) (k : String) : Option Nat :=
  match d with
  | [] => none
  | (k', v) :: rest => if k' = k then some v else dictLookup rest k

/-- Insert-or-update in a Python dict: overwriting an existing key keeps its
original slot, a new key goes to the end (insertion order). -/
def dictInsert (d : List (String × Nat)) (k : String) (v : Nat) : List (String × Nat) :=
  match d with
  | [] => [(k, v)]
  | (k', v') :: rest => if k' = k then (k', v) :: rest else (k', v') :: dictInsert rest k v

/-- The state of a `RealEstateGame` object: `self._gameboard`,
`self._players` (name → object reference), plus the universe `objs` of all
player objects ever constructed (an object reference is an index). -/
structure GameState where
  gameboard : List Space
  players : List (String × Nat)
  objs : List Player
deriving Repr, DecidableEq

/-- `RealEstateGame.__init__`: empty board, empty player dict. -/
def initialState : GameState :=
  { gameboard := [], players := [], objs := [] }

/-- Overwrite the player object at reference `pid` (an in-place mutation of
the Python object). -/
def GameState.setObj (st : GameState) (pid : Nat) (p : Player) : GameState :=
  { st with objs := st.objs.set pid p }

/-- Balance of the object at reference `pid` (0 for a dangling reference,
which never occurs in reachable states). -/
def GameState.objBalance (st : GameState) (pid : Nat) : Int :=
  ((st.objs.get? pid).map Player.account_balance).getD 0

/-- Position of the object at reference `pid`. -/
def GameState.objPosition (st : GameState) (pid : Nat) : Int :=
  ((st.objs.get? pid).map Player.position).getD 0

/-- `RealEstateGame.create_spaces`: appends a GO space and then 24 property
spaces built from the first 24 rent amounts; fewer than 24 rent amounts is an
IndexError in the Python loop. -/
def create_spaces (st : GameState) (go_payout : Int) (rent_amounts : List Int) :
    Except Err GameState :=
  if rent_amounts.length < 24 then Except.error Err.indexError
  else Except.ok { st with gameboard :=
    st.gameboard ++ Space.go go_payout ::
      (rent_amounts.take 24).map (fun rent => Space.property rent none) }

/-- `RealEstateGame.create_player`: no-op when `account_balance <= 0`,
otherwise constructs a fresh `Player` object (a new reference) and binds the
name to it in the dict, silently overwriting any previous binding. -/
def create_player (st : GameState) (name : String) (account_balance : Int) : GameState :=
  if account_balance ≤ 0 then st
  else
    { st with
      players := dictInsert st.players name st.objs.length,
      objs := st.objs ++ [{ name := name, account_balance := account_balance, position := 0 }] }

/-- `self._players[player_name]`: dict lookup, KeyError when absent, then
dereference of the object. -/
def lookupPlayer (st : GameState) (player_name : String) : Except Err (Nat × Player) :=
  match dictLookup st.players player_name with
  | none => Except.error Err.notFound
  | some pid =>
    match st.objs.get? pid with
    | none => Except.error Err.notFound
    | some p => Except.ok (pid, p)

/-- `RealEstateGame.get_player_account_balance`. -/
def get_player_account_balance (st : GameState) (player_name : String) : Except Err Int :=
  match lookupPlayer st player_name with
  | Except.error e => Except.error e
  | Except.ok pp => Except.ok pp.2.get_account_balance

/-- `RealEstateGame.get_player_current_position`. -/
def get_player_current_position (st : GameState) (player_name : String) : Except Err Int :=
  match lookupPlayer st player_name with
  | Except.error e => Except.error e
  | Except.ok pp => Except.ok pp.2.get_position

/-- `RealEstateGame.buy_space`: succeeds iff the space under the player is
not GO, has no owner, and the balance strictly exceeds the buy price
(`rent * 5`); on success sets the player as owner and subtracts the price. -/
def buy_space (st : GameState) (player_name : String) : Except Err (Bool × GameState) :=
  match lookupPlayer st player_name with
  | Except.error e => Except.error e
  | Except.ok (pid, player) =>
    match pyIndex st.gameboard player.get_position with
    | none => Except.error Err.indexError
    | some (Space.go _) => Except.ok (false, st)
    | some (Space.property rent owner) =>
      match owner with
      | some _ => Except.ok (false, st)
      | none =>
        if player.get_account_balance > rent * 5 then
          let board := pySet st.gameboard player.get_position (Space.property rent (some pid))
          Except.ok (true,
            ({ st with gameboard := board }).setObj pid
              (player.sub_account_balance (rent * 5)))
        else Except.ok (false, st)

/-- Loop body of `RealEstateGame.remove_player`: clear the given object as
owner (`space.new_owner(None)` when `space.get_owner() == player_obj`). -/
def clearOwner (pid : Nat) (sp : Space) : Space :=
  match sp with
  | Space.property rent (some oid) =>
    if oid = pid then Space.property rent none else sp
  | _ => sp

/-- `RealEstateGame.remove_player`: zero the object's balance
(`sub_account_balance` of its own balance) and clear it as owner from every
property space. -/
def remove_player (st : GameState) (pid : Nat) : GameState :=
  let st1 :=
    match st.objs.get? pid with
    | none => st
    | some p => st.setObj pid (p.sub_account_balance p.get_account_balance)
  { st1 with gameboard := st1.gameboard.map (clearOwner pid) }

/-- First half of `RealEstateGame.move_player` after its guards: update the
object's position via `Player.move_player`, then, when the new position is
numerically below the old one, credit `self._gameboard[0].get_payout_amount()`
to the object.  Returns the updated state together with the updated object. -/
def movePhase1 (st : GameState) (pid : Nat) (player : Player) (number_of_spaces : Int) :
    Except Err (GameState × Player) :=
  let old_position := player.get_position
  let moved := player.move_player number_of_spaces (st.gameboard.length : Int)
  if moved.get_position < old_position then
    match st.gameboard.get? 0 with
    | none => Except.error Err.indexError
    | some sp =>
      match sp.get_payout_amount with
      | none => Except.error Err.attributeError
      | some go_payout =>
        let credited := moved.add_account_balance go_payout
        Except.ok (st.setObj pid credited, credited)
  else Except.ok (st.setObj pid moved, moved)

/-- Second half of `RealEstateGame.move_player`: landing effects at the
moved object's position.  GO, an unowned property, and the mover's own
property have no effect; an owner short of shelter money gets rent or, when
the mover's balance is below the rent, the whole balance followed by
`remove_player`. -/
def settleRent (st : GameState) (pid : Nat) (player : Player) : Except Err GameState :=
  match pyIndex st.gameboard player.get_position with
  | none => Except.error Err.indexError
  | some (Space.go _) => Except.ok st
  | some (Space.property rent owner) =>
    match owner with
    | none => Except.ok st
    | some oid =>
      if oid = pid then Except.ok st
      else
        match st.objs.get? oid with
        | none => Except.error Err.notFound
        | some ownerObj =>
          if player.get_account_balance < rent then
            Except.ok (remove_player
              (st.setObj oid (ownerObj.add_account_balance player.get_account_balance)) pid)
          else
            Except.ok ((st.setObj oid (ownerObj.add_account_balance rent)).setObj
              pid (player.sub_account_balance rent))

/-- `RealEstateGame.move_player`: no-op for a zero-balance player or a move
outside [1,6]; otherwise position update and GO payout (`movePhase1`)
followed by the landing effects (`settleRent`). -/
def move_player (st : GameState) (player_name : String) (number_of_spaces : Int) :
    Except Err GameState :=
  match lookupPlayer st player_name with
  | Except.error e => Except.error e
  | Except.ok (pid, player) =>
    if player.get_account_balance = 0 then Except.ok st
    else if number_of_spaces < 1 ∨ number_of_spaces > 6 then Except.ok st
    else
      match movePhase1 st pid player number_of_spaces with
      | Except.error e => Except.error e
      | Except.ok st1p => settleRent st1p.1 pid st1p.2

/-- Loop body of `check_game_over`: the entry's name when its player object
has nonzero balance (`get_player_account_balance(player) != 0`). -/
def notOutName (st : GameState) (entry : String × Nat) : Option String :=
  match st.objs.get? entry.2 with
  | some p => if p.get_account_balance ≠ 0 then some entry.1 else none
  | none => none

/-- `RealEstateGame.check_game_over`: collect, in dict order, the names whose
player object has nonzero balance; return the single such name, else `""`. -/
def check_game_over (st : GameState) : String :=
  let players_not_out := st.players.filterMap (notOutName st)
  if players_not_out.length = 1 then players_not_out.headD "" else ""

/-! ## Traces of engine operations -/

/-- One call into the engine's public interface.  `removePlayer` carries an
object reference, as the Python method takes a `Player` object. -/
inductive Op where
  | createSpaces (go_payout : Int) (rent_amounts : List Int)
  | createPlayer (name : String) (account_balance : Int)
  | buySpace (player_name : String)
  | movePlayer (player_name : String) (number_of_spaces : Int)
  | removePlayer (pid : Nat)
deriving Repr, DecidableEq

/-- Apply one engine call to the state (the boolean result of `buy_space`
is discarded). -/
def applyOp (st : GameState) : Op → Except Err GameState
  | Op.createSpaces payout rents => create_spaces st payout rents
  | Op.createPlayer name balance => Except.ok (create_player st name balance)
  | Op.buySpace name =>
    match buy_space st name with
    | Except.error e => Except.error e
    | Except.ok bs => Except.ok bs.2
  | Op.movePlayer name n => move_player st name n
  | Op.removePlayer pid => Except.ok (remove_player st pid)

/-- Well-typedness of a call's money parameters, as required by the data
model of the specification: a GO payout is a non-negative integer and rents
are non-negative integers.  All other calls are unconstrained. -/
def Op.moneyWf : Op → Prop
  | Op.createSpaces payout rents => 0 ≤ payout ∧ ∀ r ∈ rents, 0 ≤ r
  | _ => True

instance (op : Op) : Decidable op.moneyWf :=
  match op with
  | Op.createSpaces payout rents =>
    inferInstanceAs (Decidable (0 ≤ payout ∧ ∀ r ∈ rents, 0 ≤ r))
  | Op.createPlayer _ _ => inferInstanceAs (Decidable True)
  | Op.buySpace _ => inferInstanceAs (Decidable True)
  | Op.movePlayer _ _ => inferInstanceAs (Decidable True)
  | Op.removePlayer _ => inferInstanceAs (Decidable True)

/-- States reachable from a fresh game by sequences of well-typed engine
calls; a call that raises keeps the pre-call state out of the trace. -/
inductive Reachable : GameState → Prop where
  | base : Reachable initialState
  | step {st : GameState} {op : Op} {st' : GameState} :
      Reachable st → op.moneyWf → applyOp st op = Except.ok st' → Reachable st'

/-- Run a list of engine calls, skipping any call that raises. -/
def runOps (st : GameState) : List Op → GameState
  | [] => st
  | op :: rest =>
    match applyOp st op with
    | Except.ok st' => runOps st' rest
    | Except.error _ => runOps st rest

theorem reachable_runOps {st : GameState} (ops : List Op) (h : Reachable st)
    (hwf : ∀ op ∈ ops, op.moneyWf) : Reachable (runOps st ops) := by
  induction ops generalizing st with
  | nil => exact h
  | cons op rest ih =>
    have hop := hwf op (List.mem_cons_self op rest)
    have hrest : ∀ o ∈ rest, o.moneyWf := fun o ho => hwf o (List.mem_cons_of_mem _ ho)
    cases happ : applyOp st op with
    | ok st' =>
      rw [runOps, happ]
      exact ih (Reachable.step h hop happ) hrest
    | error e =>
      rw [runOps, happ]
      exact ih h hrest

/-! ## Basic lemmas about the embedded methods -/

@[simp]
theorem Player.get_account_balance_def (p : Player) :
    p.get_account_balance = p.account_balance := rfl

@[simp]
theorem Player.get_position_def (p : Player) : p.get_position = p.position := rfl

@[simp]
theorem Player.add_balance (p : Player) (a : Int) :
    (p.add_account_balance a).account_balance = p.account_balance + a := rfl

@[simp]
theorem Player.add_position (p : Player) (a : Int) :
    (p.add_account_balance a).position = p.position := rfl

theorem Player.sub_balance_nonneg (p : Player) (a : Int) :
    0 ≤ (p.sub_account_balance a).account_balance := by
  unfold Player.sub_account_balance
  split <;> simp <;> omega

theorem Player.sub_balance_of_le (p : Player) (a : Int) (h : a ≤ p.account_balance) :
    (p.sub_account_balance a).account_balance = p.account_balance - a := by
  unfold Player.sub_account_balance
  split <;> simp <;> omega

theorem Player.sub_balance_clamp (p : Player) (a : Int) (h : p.account_balance < a) :
    (p.sub_account_balance a).account_balance = 0 := by
  unfold Player.sub_account_balance
  split <;> simp <;> omega

@[simp]
theorem Player.sub_self_balance (p : Player) :
    (p.sub_account_balance p.account_balance).account_balance = 0 := by
  unfold Player.sub_account_balance
  split <;> simp

@[simp]
theorem Player.sub_position (p : Player) (a : Int) :
    (p.sub_account_balance a).position = p.position := by
  unfold Player.sub_account_balance
  split <;> rfl

@[simp]
theorem Player.move_balance (p : Player) (n b : Int) :
    (p.move_player n b).account_balance = p.account_balance := by
  simp only [Player.move_player]
  split <;> rfl

theorem Player.move_position (p : Player) (n b : Int) :
    (p.move_player n b).position =
      if p.position + n ≥ b then p.position + n - b else p.position + n := by
  simp only [Player.move_player]
  by_cases h : p.position + n ≥ b <;> simp [h]

@[simp]
theorem GameState.setObj_gameboard (st : GameState) (pid : Nat) (p : Player) :
    (st.setObj pid p).gameboard = st.gameboard := rfl

@[simp]
theorem GameState.setObj_players (st : GameState) (pid : Nat) (p : Player) :
    (st.setObj pid p).players = st.players := rfl

@[simp]
theorem GameState.setObj_objs (st : GameState) (pid : Nat) (p : Player) :
    (st.setObj pid p).objs = st.objs.set pid p := rfl

theorem GameState.objBalance_eq (st : GameState) (pid : Nat) (p : Player)
    (h : st.objs.get? pid = some p) : st.objBalance pid = p.account_balance := by
  unfold GameState.objBalance
  rw [h]
  rfl

theorem GameState.objPosition_eq (st : GameState) (pid : Nat) (p : Player)
    (h : st.objs.get? pid = some p) : st.objPosition pid = p.position := by
  unfold GameState.objPosition
  rw [h]
  rfl

theorem GameState.objBalance_setObj_same (st : GameState) (pid : Nat) (p : Player)
    (h : pid < st.objs.length) : (st.setObj pid p).objBalance pid = p.account_balance := by
  unfold GameState.objBalance
  rw [GameState.setObj_objs, List.get?_set_eq_of_lt p h]
  rfl

theorem GameState.objBalance_setObj_ne (st : GameState) (pid qid : Nat) (p : Player)
    (h : pid ≠ qid) : (st.setObj pid p).objBalance qid = st.objBalance qid := by
  unfold GameState.objBalance
  rw [GameState.setObj_objs, List.get?_set_ne p _ h]

theorem GameState.objPosition_setObj_same (st : GameState) (pid : Nat) (p : Player)
    (h : pid < st.objs.length) : (st.setObj pid p).objPosition pid = p.position := by
  unfold GameState.objPosition
  rw [GameState.setObj_objs, List.get?_set_eq_of_lt p h]
  rfl

theorem GameState.objPosition_setObj_ne (st : GameState) (pid qid : Nat) (p : Player)
    (h : pid ≠ qid) : (st.setObj pid p).objPosition qid = st.objPosition qid := by
  unfold GameState.objPosition
  rw [GameState.setObj_objs, List.get?_set_ne p _ h]

theorem pyIndex_mem {l : List α} {i : Int} {a : α} (h : pyIndex l i = some a) : a ∈ l := by
  unfold pyIndex at h
  split at h
  · exact List.get?_mem h
  · split at h
    · exact List.get?_mem h
    · cases h

theorem pySet_mem {l : List α} {i : Int} {v a : α} (h : a ∈ pySet l i v) :
    a ∈ l ∨ a = v := by
  unfold pySet at h
  split at h <;> exact List.mem_or_eq_of_mem_set h

/-! ## The balance invariant -/

/-- Money well-formedness of a space, as the data model types it: the GO
payout and every rent is a non-negative integer. -/
def Space.moneyWf : Space → Prop
  | Space.go payout => 0 ≤ payout
  | Space.property rent _ => 0 ≤ rent

/-- The inductive invariant: all spaces carry non-negative money amounts and
every player object ever created has a non-negative balance. -/
def Inv (st : GameState) : Prop :=
  (∀ sp ∈ st.gameboard, sp.moneyWf) ∧ ∀ p ∈ st.objs, 0 ≤ p.account_balance

theorem Inv_initialState : Inv initialState := by
  constructor <;> intro x hx <;> cases hx

theorem Inv_create_spaces {st st' : GameState} {payout : Int} {rents : List Int}
    (hp : 0 ≤ payout) (hr : ∀ r ∈ rents, 0 ≤ r)
    (h : create_spaces st payout rents = Except.ok st') (hinv : Inv st) : Inv st' := by
  unfold create_spaces at h
  split at h
  · cases h
  · cases h
    refine ⟨?_, hinv.2⟩
    intro sp hsp
    rcases List.mem_append.1 hsp with hsp | hsp
    · exact hinv.1 sp hsp
    · rcases List.mem_cons.1 hsp with rfl | hsp
      · exact hp
      · rcases List.mem_map.1 hsp with ⟨r, hrm, rfl⟩
        exact hr r (List.take_subset 24 rents hrm)

theorem Inv_create_player {st : GameState} (name : String) (balance : Int)
    (hinv : Inv st) : Inv (create_player st name balance) := by
  unfold create_player
  split
  · exact hinv
  · refine ⟨hinv.1, ?_⟩
    intro p hp
    rcases List.mem_append.1 hp with hp | hp
    · exact hinv.2 p hp
    · rcases List.mem_singleton.1 hp with rfl
      have hb : (0 : Int) ≤ balance := by omega
      simpa using hb

theorem moneyWf_clearOwner (pid : Nat) (sp : Space) (h : sp.moneyWf) :
    (clearOwner pid sp).moneyWf := by
  cases sp with
  | go payout => exact h
  | property rent owner =>
    cases owner with
    | none => exact h
    | some oid =>
      by_cases hoid : oid = pid <;> simp [clearOwner, hoid] <;> exact h

theorem Inv_remove_player {st : GameState} (pid : Nat) (hinv : Inv st) :
    Inv (remove_player st pid) := by
  cases hob : st.objs.get? pid with
  | none =>
    simp only [remove_player, hob]
    refine ⟨?_, hinv.2⟩
    intro sp hsp
    rcases List.mem_map.1 hsp with ⟨sp0, hsp0, rfl⟩
    exact moneyWf_clearOwner pid sp0 (hinv.1 sp0 hsp0)
  | some q =>
    simp only [remove_player, hob]
    constructor
    · intro sp hsp
      simp only [GameState.setObj_gameboard] at hsp
      rcases List.mem_map.1 hsp with ⟨sp0, hsp0, rfl⟩
      exact moneyWf_clearOwner pid sp0 (hinv.1 sp0 hsp0)
    · intro p hp
      simp only [GameState.setObj_objs] at hp
      rcases List.mem_or_eq_of_mem_set hp with hp | rfl
      · exact hinv.2 p hp
      · exact Player.sub_balance_nonneg q q.get_account_balance

theorem Inv_buy_space {st st' : GameState} {name : String} {b : Bool}
    (h : buy_space st name = Except.ok (b, st')) (hinv : Inv st) : Inv st' := by
  unfold buy_space at h
  cases hlp : lookupPlayer st name with
  | error e => simp only [hlp] at h; cases h
  | ok pp =>
    obtain ⟨pid, player⟩ := pp
    simp only [hlp] at h
    cases hidx : pyIndex st.gameboard player.get_position with
    | none => simp only [hidx] at h; cases h
    | some sp =>
      simp only [hidx] at h
      cases sp with
      | go payout =>
        dsimp only at h
        cases h
        exact hinv
      | property rent owner =>
        cases owner with
        | some oid =>
          dsimp only at h
          cases h
          exact hinv
        | none =>
          dsimp only at h
          split at h
          · cases h
            constructor
            · intro sp hsp
              simp only [GameState.setObj_gameboard] at hsp
              rcases pySet_mem hsp with hsp | rfl
              · exact hinv.1 sp hsp
              · have hwf := hinv.1 _ (pyIndex_mem hidx)
                simp only [Space.moneyWf] at hwf ⊢
                exact hwf
            · intro p hp
              simp only [GameState.setObj_objs] at hp
              rcases List.mem_or_eq_of_mem_set hp with hp | rfl
              · exact hinv.2 p hp
              · exact Player.sub_balance_nonneg player _
          · cases h; exact hinv

theorem Inv_movePhase1 {st st1 : GameState} {pid : Nat} {player moved : Player} {n : Int}
    (h : movePhase1 st pid player n = Except.ok (st1, moved)) (hinv : Inv st)
    (hbal : 0 ≤ player.account_balance) :
    Inv st1 ∧ 0 ≤ moved.account_balance ∧ st1.gameboard = st.gameboard := by
  simp only [movePhase1] at h
  by_cases hw : (player.move_player n (st.gameboard.length : Int)).get_position <
      player.get_position
  · rw [if_pos hw] at h
    cases hsp : st.gameboard.get? 0 with
    | none => simp only [hsp] at h; cases h
    | some sp =>
      simp only [hsp] at h
      cases hpm : sp.get_payout_amount with
      | none => simp only [hpm] at h; cases h
      | some payout =>
        simp only [hpm] at h
        cases h
        have hpw : 0 ≤ payout := by
          have hwf := hinv.1 sp (List.get?_mem hsp)
          cases sp with
          | go q => cases hpm; exact hwf
          | property r o => cases hpm
        have hmb : 0 ≤ ((player.move_player n
            (st.gameboard.length : Int)).add_account_balance payout).account_balance := by
          simp only [Player.add_balance, Player.move_balance]
          omega
        refine ⟨⟨hinv.1, ?_⟩, hmb, rfl⟩
        intro p hp
        simp only [GameState.setObj_objs] at hp
        rcases List.mem_or_eq_of_mem_set hp with hp | rfl
        · exact hinv.2 p hp
        · exact hmb
  · rw [if_neg hw] at h
    cases h
    have hmb : 0 ≤ (player.move_player n
        (st.gameboard.length : Int)).account_balance := by
      simp only [Player.move_balance]
      exact hbal
    refine ⟨⟨hinv.1, ?_⟩, hmb, rfl⟩
    intro p hp
    simp only [GameState.setObj_objs] at hp
    rcases List.mem_or_eq_of_mem_set hp with hp | rfl
    · exact hinv.2 p hp
    · exact hmb

theorem Inv_settleRent {st st' : GameState} {pid : Nat} {player : Player}
    (h : settleRent st pid player = Except.ok st') (hinv : Inv st)
    (hbal : 0 ≤ player.account_balance) : Inv st' := by
  unfold settleRent at h
  cases hidx : pyIndex st.gameboard player.get_position with
  | none => simp only [hidx] at h; cases h
  | some sp =>
    simp only [hidx] at h
    cases sp with
    | go payout =>
      dsimp only at h
      cases h
      exact hinv
    | property rent owner =>
      cases owner with
      | none =>
        dsimp only at h
        cases h
        exact hinv
      | some oid =>
        dsimp only at h
        have hrent : 0 ≤ rent := by
          have hwf := hinv.1 _ (pyIndex_mem hidx)
          simpa [Space.moneyWf] using hwf
        by_cases hop : oid = pid
        · rw [if_pos hop] at h
          cases h
          exact hinv
        · rw [if_neg hop] at h
          cases hob : st.objs.get? oid with
          | none => simp only [hob] at h; cases h
          | some ownerObj =>
            simp only [hob] at h
            have hset : ∀ q : Player, 0 ≤ q.account_balance →
                Inv (st.setObj oid q) := by
              intro q hq
              refine ⟨hinv.1, ?_⟩
              intro p hp
              simp only [GameState.setObj_objs] at hp
              rcases List.mem_or_eq_of_mem_set hp with hp | rfl
              · exact hinv.2 p hp
              · exact hq
            have how : 0 ≤ ownerObj.account_balance := hinv.2 _ (List.get?_mem hob)
            by_cases hlt : player.get_account_balance < rent
            · rw [if_pos hlt] at h
              cases h
              refine Inv_remove_player pid (hset _ ?_)
              simp only [Player.add_balance, Player.get_account_balance_def]
              omega
            · rw [if_neg hlt] at h
              cases h
              refine ⟨hinv.1, ?_⟩
              intro p hp
              simp only [GameState.setObj_objs] at hp
              rcases List.mem_or_eq_of_mem_set hp with hp | rfl
              · rcases List.mem_or_eq_of_mem_set hp with hp | rfl
                · exact hinv.2 p hp
                · simp only [Player.add_balance]
                  omega
              · exact Player.sub_balance_nonneg player rent

theorem Inv_move_player {st st' : GameState} {name : String} {n : Int}
    (h : move_player st name n = Except.ok st') (hinv : Inv st) : Inv st' := by
  unfold move_player at h
  cases hlp : lookupPlayer st name with
  | error e => simp only [hlp] at h; cases h
  | ok pp =>
    obtain ⟨pid, player⟩ := pp
    simp only [hlp] at h
    have hpb : 0 ≤ player.account_balance := by
      unfold lookupPlayer at hlp
      cases hdl : dictLookup st.players name with
      | none => simp only [hdl] at hlp; cases hlp
      | some pid' =>
        simp only [hdl] at hlp
        cases hob : st.objs.get? pid' with
        | none => simp only [hob] at hlp; cases hlp
        | some q =>
          simp only [hob] at hlp
          cases hlp
          exact hinv.2 _ (List.get?_mem hob)
    split at h
    · cases h; exact hinv
    · split at h
      · cases h; exact hinv
      · cases hph : movePhase1 st pid player n with
        | error e => simp only [hph] at h; cases h
        | ok st1m =>
          simp only [hph] at h
          obtain ⟨hinv1, hmb, -⟩ := Inv_movePhase1 hph hinv hpb
          exact Inv_settleRent h hinv1 hmb

theorem Inv_applyOp {st st' : GameState} {op : Op} (hwf : op.moneyWf)
    (h : applyOp st op = Except.ok st') (hinv : Inv st) : Inv st' := by
  cases op with
  | createSpaces payout rents => exact Inv_create_spaces hwf.1 hwf.2 h hinv
  | createPlayer name balance =>
    cases h
    exact Inv_create_player name balance hinv
  | buySpace name =>
    unfold applyOp at h
    cases hbs : buy_space st name with
    | error e => simp only [hbs] at h; cases h
    | ok bs =>
      simp only [hbs] at h
      cases h
      exact Inv_buy_space hbs hinv
  | movePlayer name n => exact Inv_move_player h hinv
  | removePlayer pid =>
    cases h
    exact Inv_remove_player pid hinv

theorem Inv_reachable {st : GameState} (h : Reachable st) : Inv st := by
  induction h with
  | base => exact Inv_initialState
  | step hr hwf happ ih => exact Inv_applyOp hwf happ ih

/-! ## Claim C1 -/

/-- C1: over every sequence of engine operations from the initial state,
every player object's balance — in particular every registered player's
balance — stays a non-negative integer, and `Player.sub_account_balance`
clamps the balance at exactly zero whenever the subtracted amount exceeds
it. -/
theorem c1_balances_never_negative :
    (∀ st : GameState, Reachable st →
      (∀ p ∈ st.objs, 0 ≤ p.account_balance) ∧
      ∀ name pid, dictLookup st.players name = some pid → 0 ≤ st.objBalance pid) ∧
    ∀ (p : Player) (amount : Int), p.account_balance < amount →
      (p.sub_account_balance amount).account_balance = 0 := by
  constructor
  · intro st hst
    have hinv := Inv_reachable hst
    refine ⟨hinv.2, ?_⟩
    intro name pid hdl
    cases hob : st.objs.get? pid with
    | none =>
      unfold GameState.objBalance
      rw [hob]
      simp
    | some p =>
      rw [GameState.objBalance_eq st pid p hob]
      exact hinv.2 p (List.get?_mem hob)
  · intro p amount hlt
    exact Player.sub_balance_clamp p amount hlt

/-- A sample trace for the C1 witness: buy a property, collect rent, wrap
past GO. -/
def c1Ops : List Op :=
  [Op.createSpaces 50 (List.replicate 24 10),
   Op.createPlayer "A" 100, Op.createPlayer "B" 100,
   Op.movePlayer "A" 1, Op.buySpace "A", Op.movePlayer "B" 1]

theorem c1_balances_never_negative_witness :
    (∀ p ∈ (runOps initialState c1Ops).objs, 0 ≤ p.account_balance) ∧
    ((⟨"P", 5, 0⟩ : Player).account_balance < 7 ∧
      ((⟨"P", 5, 0⟩ : Player).sub_account_balance 7).account_balance = 0) :=
  ⟨(c1_balances_never_negative.1 (runOps initialState c1Ops)
      (reachable_runOps c1Ops Reachable.base (by decide))).1,
   by decide,
   c1_balances_never_negative.2 ⟨"P", 5, 0⟩ 7 (by decide)⟩

/-! ## Claim C9 -/

/-- C9: for every unregistered name, `get_player_account_balance` and
`get_player_current_position` fail with the explicit NotFound error, and for
every registered name they return the player's balance and position (they
are pure observers: the state is not modified). -/
theorem c9_lookup_notFound :
    (∀ (st : GameState) (name : String), dictLookup st.players name = none →
      get_player_account_balance st name = Except.error Err.notFound ∧
      get_player_current_position st name = Except.error Err.notFound) ∧
    ∀ (st : GameState) (name : String) (pid : Nat) (p : Player),
      dictLookup st.players name = some pid → st.objs.get? pid = some p →
      get_player_account_balance st name = Except.ok p.account_balance ∧
      get_player_current_position st name = Except.ok p.position := by
  constructor
  · intro st name hdl
    constructor <;>
      simp only [get_player_account_balance, get_player_current_position, lookupPlayer, hdl]
  · intro st name pid p hdl hob
    constructor <;>
      simp only [get_player_account_balance, get_player_current_position, lookupPlayer,
        hdl, hob, Player.get_account_balance_def, Player.get_position_def]

theorem c9_lookup_notFound_witness :
    (get_player_account_balance initialState "ghost" = Except.error Err.notFound ∧
      get_player_current_position initialState "ghost" = Except.error Err.notFound) ∧
    (get_player_account_balance (create_player initialState "A" 100) "A" =
        Except.ok 100 ∧
      get_player_current_position (create_player initialState "A" 100) "A" =
        Except.ok 0) :=
  ⟨c9_lookup_notFound.1 initialState "ghost" (by decide),
   c9_lookup_notFound.2 (create_player initialState "A" 100) "A" 0
     ⟨"A", 100, 0⟩ (by decide) (by decide)⟩

/-! ## Claim C7 -/

/-- Whether a registry entry refers to a player object with nonzero
balance. -/
def activeEntry (objs : List Player) (en : String × Nat) : Bool :=
  decide (((objs.get? en.2).map Player.account_balance).getD 0 ≠ 0)

theorem notOutName_of_inactive (st : GameState) (e : String × Nat)
    (h : activeEntry st.objs e = false) : notOutName st e = none := by
  unfold notOutName
  unfold activeEntry at h
  cases hob : st.objs.get? e.2 with
  | none => rfl
  | some p =>
    rw [hob] at h
    simp at h
    simp [h]

theorem notOutName_of_active (st : GameState) (e : String × Nat)
    (h : activeEntry st.objs e = true) : notOutName st e = some e.1 := by
  unfold notOutName
  unfold activeEntry at h
  cases hob : st.objs.get? e.2 with
  | none => rw [hob] at h; simp at h
  | some p =>
    rw [hob] at h
    simp at h
    simp [h]

/-- The loop of `check_game_over` collects exactly the names of the registry
entries whose object has a nonzero balance, in registry order. -/
theorem players_not_out_eq (st : GameState) (l : List (String × Nat)) :
    l.filterMap (notOutName st) = (l.filter (activeEntry st.objs)).map Prod.fst := by
  induction l with
  | nil => rfl
  | cons e rest ih =>
    cases ha : activeEntry st.objs e with
    | false =>
      rw [List.filterMap_cons_none (notOutName_of_inactive st e ha),
        List.filter_cons_of_neg (by simp [ha]), ih]
    | true =>
      rw [List.filterMap_cons_some (notOutName_of_active st e ha),
        List.filter_cons_of_pos ha, List.map_cons, ih]

/-- C7: `check_game_over` returns a registered player's name exactly when
that player is the unique registered entry with nonzero balance, and returns
the empty string in every other case (zero registered players, zero
survivors, two or more survivors); it is a total function of the state, so
no error occurs. -/
theorem c7_check_game_over (st : GameState) :
    (∀ e : String × Nat, st.players.filter (activeEntry st.objs) = [e] →
      check_game_over st = e.1 ∧ e ∈ st.players ∧ st.objBalance e.2 ≠ 0) ∧
    ((st.players.filter (activeEntry st.objs)).length ≠ 1 →
      check_game_over st = "") := by
  constructor
  · intro e he
    unfold check_game_over
    rw [players_not_out_eq st st.players, he]
    have hmem : e ∈ st.players.filter (activeEntry st.objs) := by
      rw [he]
      exact List.mem_singleton.2 rfl
    refine ⟨rfl, List.mem_of_mem_filter hmem, ?_⟩
    have := List.of_mem_filter hmem
    unfold activeEntry at this
    exact of_decide_eq_true this
  · intro hne
    unfold check_game_over
    rw [players_not_out_eq st st.players]
    have hlen : ((st.players.filter (activeEntry st.objs)).map Prod.fst).length ≠ 1 := by
      rw [List.length_map]
      exact hne
    simp only [if_neg hlen]

/-- A concrete two-player state for the C7 witness: only "A" still has
money. -/
def c7State : GameState :=
  { gameboard := [Space.go 50],
    players := [("A", 0), ("B", 1)],
    objs := [⟨"A", 65, 1⟩, ⟨"B", 0, 3⟩] }

theorem c7_check_game_over_witness :
    (check_game_over c7State = "A" ∧ ("A", 0) ∈ c7State.players ∧
      c7State.objBalance 0 ≠ 0) ∧
    check_game_over initialState = "" :=
  ⟨(c7_check_game_over c7State).1 ("A", 0) (by decide),
   (c7_check_game_over initialState).2 (by decide)⟩

/-! ## Claim C3 -/

theorem lookupPlayer_ok {st : GameState} {name : String} {pid : Nat} {player : Player}
    (h : lookupPlayer st name = Except.ok (pid, player)) :
    dictLookup st.players name = some pid ∧ st.objs.get? pid = some player := by
  unfold lookupPlayer at h
  cases hdl : dictLookup st.players name with
  | none => simp only [hdl] at h; cases h
  | some pid' =>
    simp only [hdl] at h
    cases hob : st.objs.get? pid' with
    | none => simp only [hob] at h; cases h
    | some q =>
      simp only [hob] at h
      cases h
      exact ⟨rfl, hob⟩

theorem pyIndex_lt_length {l : List α} {i : Int} {a : α} (h : pyIndex l i = some a)
    (hi : 0 ≤ i) : i.toNat < l.length := by
  unfold pyIndex at h
  rw [if_pos hi] at h
  rcases List.get?_eq_some.1 h with ⟨hlt, -⟩
  exact hlt

theorem pyIndex_pySet_same {l : List α} {i : Int} {a : α} (h : pyIndex l i = some a)
    (v : α) : pyIndex (pySet l i v) i = some v := by
  unfold pyIndex at h
  unfold pyIndex pySet
  by_cases hi : 0 ≤ i
  · rw [if_pos hi] at h ⊢
    rw [if_pos hi]
    rcases List.get?_eq_some.1 h with ⟨hlt, -⟩
    exact List.get?_set_eq_of_lt v (by simpa using hlt)
  · rw [if_neg hi] at h ⊢
    rw [if_neg hi, List.length_set]
    split at h
    · rw [if_pos (by assumption)]
      rcases List.get?_eq_some.1 h with ⟨hlt, -⟩
      exact List.get?_set_eq_of_lt v (by simpa using hlt)
    · cases h

/-- C3: `buy_space` succeeds exactly when the space under the player is an
unowned property space and the player's balance strictly exceeds the buy
price `rent * 5`; on success the buy price is deducted and the player
becomes the owner; in every other case — the GO space, an owned space, or a
balance not strictly above the price (equality included) — it returns
`false` and changes nothing. -/
theorem c3_buy_space (st : GameState) (name : String) (pid : Nat) (player : Player)
    (space : Space)
    (hlp : lookupPlayer st name = Except.ok (pid, player))
    (hidx : pyIndex st.gameboard player.get_position = some space) :
    (∀ rent : Int, space = Space.property rent none →
      player.account_balance > rent * 5 →
      ∃ st', buy_space st name = Except.ok (true, st') ∧
        st'.objBalance pid = player.account_balance - rent * 5 ∧
        pyIndex st'.gameboard player.get_position =
          some (Space.property rent (some pid))) ∧
    ((space.get_space_type = "GO" ∨ space.spaceOwner ≠ none ∨
        ∀ rent : Int, space = Space.property rent none →
          player.account_balance ≤ rent * 5) →
      buy_space st name = Except.ok (false, st)) ∧
    ∀ (b : Bool) (st' : GameState), buy_space st name = Except.ok (b, st') → b = true →
      ∃ rent : Int, space = Space.property rent none ∧
        player.account_balance > rent * 5 := by
  have hob := (lookupPlayer_ok hlp).2
  have hpidlt : pid < st.objs.length := (List.get?_eq_some.1 hob).1
  refine ⟨?_, ?_, ?_⟩
  · intro rent hsp hgt
    subst hsp
    refine ⟨GameState.setObj { st with gameboard := pySet st.gameboard player.get_position (Space.property rent (some pid)) } pid (player.sub_account_balance (rent * 5)), ?_, ?_, ?_⟩
    · unfold buy_space
      simp only [hlp, hidx]
      rw [if_pos (by simpa using hgt)]
    · unfold GameState.objBalance
      rw [GameState.setObj_objs,
        List.get?_set_eq_of_lt (player.sub_account_balance (rent * 5))
          (by simpa using hpidlt)]
      show (player.sub_account_balance (rent * 5)).account_balance =
        player.account_balance - rent * 5
      exact Player.sub_balance_of_le player (rent * 5) (le_of_lt hgt)
    · simp only [GameState.setObj_gameboard]
      exact pyIndex_pySet_same hidx (Space.property rent (some pid))
  · intro hfail
    unfold buy_space
    simp only [hlp, hidx]
    cases space with
    | go payout => rfl
    | property rent owner =>
      cases owner with
      | some oid => rfl
      | none =>
        dsimp only
        rcases hfail with hgo | howner | hle
        · exact absurd hgo (by simp [Space.get_space_type])
        · exact absurd (rfl : (Space.property rent none).spaceOwner = none) howner
        · have hcond : ¬player.get_account_balance > rent * 5 := by
            have := hle rent rfl
            simp only [Player.get_account_balance_def]
            omega
          rw [if_neg hcond]
  · intro b st' h hb
    subst hb
    unfold buy_space at h
    simp only [hlp, hidx] at h
    cases space with
    | go payout => cases h
    | property rent owner =>
      cases owner with
      | some oid => cases h
      | none =>
        dsimp only at h
        split at h
        · exact ⟨rent, rfl, by simpa using (by assumption : player.get_account_balance > rent * 5)⟩
        · cases h

/-- A concrete state for the C3 witness: "A" stands on an unowned property
of rent 10 with balance 100. -/
def c3State : GameState :=
  { gameboard := [Space.go 50, Space.property 10 none],
    players := [("A", 0)],
    objs := [⟨"A", 100, 1⟩] }

theorem c3_buy_space_witness :
    ∃ st', buy_space c3State "A" = Except.ok (true, st') ∧
      st'.objBalance 0 = 50 ∧
      pyIndex st'.gameboard 1 = some (Space.property 10 (some 0)) :=
  (c3_buy_space c3State "A" 0 ⟨"A", 100, 1⟩ (Space.property 10 none)
    rfl rfl).1 10 rfl (by decide)

/-! ## Claim C5 -/

theorem set_of_get? (l : List α) (i : Nat) (a : α) (h : l.get? i = some a) :
    l.set i a = l := by
  induction l generalizing i with
  | nil => cases h
  | cons x xs ih =>
    cases i with
    | zero =>
      cases h
      rfl
    | succ j =>
      have := ih j h
      simp only [List.set]
      rw [this]

theorem map_set_of_get? (l : List α) (i : Nat) (v : α) (f : α → β) (w : α)
    (hw : l.get? i = some w) (hf : f v = f w) : (l.set i v).map f = l.map f := by
  rw [List.map_set, hf]
  refine set_of_get? (l.map f) i (f w) ?_
  rw [List.get?_map, hw]
  rfl

/-- `remove_player` changes balances and board ownership only: the positions
of all objects are untouched. -/
theorem remove_player_objs_positions (st : GameState) (pid : Nat) :
    (remove_player st pid).objs.map Player.position = st.objs.map Player.position := by
  cases hob : st.objs.get? pid with
  | none => simp only [remove_player, hob]
  | some p =>
    simp only [remove_player, hob, GameState.setObj_objs]
    exact map_set_of_get? st.objs pid _ Player.position p hob (Player.sub_position p _)

/-- `settleRent` moves money and ownership only: positions are untouched. -/
theorem settleRent_objs_positions {st st' : GameState} {pid : Nat} {q : Player}
    (hq : st.objs.get? pid = some q) (h : settleRent st pid q = Except.ok st') :
    st'.objs.map Player.position = st.objs.map Player.position := by
  unfold settleRent at h
  cases hidx : pyIndex st.gameboard q.get_position with
  | none => simp only [hidx] at h; cases h
  | some sp =>
    simp only [hidx] at h
    cases sp with
    | go payout =>
      dsimp only at h
      cases h
      rfl
    | property rent owner =>
      cases owner with
      | none =>
        dsimp only at h
        cases h
        rfl
      | some oid =>
        dsimp only at h
        by_cases hop : oid = pid
        · rw [if_pos hop] at h
          cases h
          rfl
        · rw [if_neg hop] at h
          cases hob : st.objs.get? oid with
          | none => simp only [hob] at h; cases h
          | some ownerObj =>
            simp only [hob] at h
            by_cases hlt : q.get_account_balance < rent
            · rw [if_pos hlt] at h
              cases h
              rw [remove_player_objs_positions]
              simp only [GameState.setObj_objs]
              exact map_set_of_get? st.objs oid _ Player.position ownerObj hob
                (Player.add_position ownerObj _)
            · rw [if_neg hlt] at h
              cases h
              simp only [GameState.setObj_objs]
              rw [map_set_of_get? _ pid _ Player.position q ?hq2 (Player.sub_position q _)]
              · exact map_set_of_get? st.objs oid _ Player.position ownerObj hob
                  (Player.add_position ownerObj _)
              case hq2 =>
                rw [List.get?_set_ne _ _ (fun hee => hop hee)]
                exact hq

/-- `movePhase1` updates only the moving object, and only as
`Player.move_player` (plus a balance credit that leaves the position
alone). -/
theorem movePhase1_positions {st st1 : GameState} {pid : Nat} {player moved : Player}
    {n : Int} (h : movePhase1 st pid player n = Except.ok (st1, moved)) :
    st1.players = st.players ∧ st1.gameboard = st.gameboard ∧
    st1.objs = st.objs.set pid moved ∧
    moved.position = (player.move_player n (st.gameboard.length : Int)).position := by
  simp only [movePhase1] at h
  by_cases hw : (player.move_player n (st.gameboard.length : Int)).get_position <
      player.get_position
  · rw [if_pos hw] at h
    cases hsp : st.gameboard.get? 0 with
    | none => simp only [hsp] at h; cases h
    | some sp =>
      simp only [hsp] at h
      cases hpm : sp.get_payout_amount with
      | none => simp only [hpm] at h; cases h
      | some payout =>
        simp only [hpm] at h
        cases h
        exact ⟨rfl, rfl, rfl, Player.add_position _ _⟩
  · rw [if_neg hw] at h
    cases h
    exact ⟨rfl, rfl, rfl, rfl⟩

/-- C5: under the engine's guards (registered mover, nonzero balance, move
in [1,6]) on a 25-space board, `Player.move_player`'s single conditional
subtraction computes `(old_position + n) mod 25`, the mover's new position
is exactly that value, and every object's position stays inside [0, 24]. -/
theorem c5_move_position :
    (∀ (p : Player) (n : Int), 0 ≤ p.position → p.position < 25 → 1 ≤ n → n ≤ 6 →
      (p.move_player n 25).position = (p.position + n) % 25) ∧
    ∀ (st : GameState) (name : String) (n : Int) (pid : Nat) (player : Player)
      (st' : GameState),
      lookupPlayer st name = Except.ok (pid, player) →
      player.account_balance ≠ 0 → 1 ≤ n → n ≤ 6 →
      st.gameboard.length = 25 →
      (∀ q ∈ st.objs, 0 ≤ q.position ∧ q.position < 25) →
      move_player st name n = Except.ok st' →
      st'.objPosition pid = (player.position + n) % 25 ∧
      ∀ q ∈ st'.objs, 0 ≤ q.position ∧ q.position < 25 := by
  have hmod : ∀ (p : Player) (n : Int), 0 ≤ p.position → p.position < 25 → 1 ≤ n →
      n ≤ 6 → (p.move_player n 25).position = (p.position + n) % 25 := by
    intro p n h0 h25 h1 h6
    rw [Player.move_position]
    split <;> omega
  refine ⟨hmod, ?_⟩
  intro st name n pid player st' hlp hbal h1 h6 hlen hall hsucc
  have hob := (lookupPlayer_ok hlp).2
  have hpidlt : pid < st.objs.length := (List.get?_eq_some.1 hob).1
  have hpr := hall player (List.get?_mem hob)
  unfold move_player at hsucc
  simp only [hlp] at hsucc
  rw [if_neg (by simpa using hbal)] at hsucc
  rw [if_neg (by omega : ¬(n < 1 ∨ n > 6))] at hsucc
  cases hph : movePhase1 st pid player n with
  | error e => simp only [hph] at hsucc; cases hsucc
  | ok st1m =>
    simp only [hph] at hsucc
    obtain ⟨st1, moved⟩ := st1m
    obtain ⟨-, hgb, hobjs, hpos⟩ := movePhase1_positions hph
    have hmoved : moved.position = (player.position + n) % 25 := by
      rw [hpos, hlen]
      exact hmod player n hpr.1 hpr.2 h1 h6
    have hq : st1.objs.get? pid = some moved := by
      rw [hobjs]
      exact List.get?_set_eq_of_lt moved (by simpa using hpidlt)
    have hmaps := settleRent_objs_positions hq hsucc
    have hmaps1 : st1.objs.map Player.position =
        (st.objs.map Player.position).set pid moved.position := by
      rw [hobjs, List.map_set]
    constructor
    · have hget : (st'.objs.map Player.position).get? pid = some moved.position := by
        rw [hmaps, hmaps1]
        exact List.get?_set_eq_of_lt moved.position (by simpa using hpidlt)
      rw [List.get?_map] at hget
      unfold GameState.objPosition
      cases hsg : st'.objs.get? pid with
      | none => rw [hsg] at hget; cases hget
      | some r =>
        rw [hsg] at hget
        have hr : r.position = moved.position := by
          have h2 : some r.position = some moved.position := by simpa using hget
          exact Option.some.inj h2
        show r.position = (player.position + n) % 25
        rw [hr, hmoved]
    · intro q hqmem
      have hqpos : q.position ∈ st'.objs.map Player.position :=
        List.mem_map.2 ⟨q, hqmem, rfl⟩
      rw [hmaps, hmaps1] at hqpos
      rcases List.mem_or_eq_of_mem_set hqpos with hqpos | hqeq
      · rcases List.mem_map.1 hqpos with ⟨q0, hq0, hfq⟩
        have := hall q0 hq0
        omega
      · rw [hqeq, hmoved]
        constructor
        · exact Int.emod_nonneg _ (by omega)
        · omega

/-- A concrete wrap scenario for the C5 witness: "A" at position 23 moves 3
on the standard 25-space board, ending at (23 + 3) mod 25 = 1. -/
def c5State : GameState :=
  { gameboard := Space.go 50 :: List.replicate 24 (Space.property 10 none),
    players := [("A", 0)],
    objs := [⟨"A", 100, 23⟩] }

/-- The state after the witness move: wrapped to position 1 with the GO
payout credited. -/
def c5After : GameState :=
  { gameboard := Space.go 50 :: List.replicate 24 (Space.property 10 none),
    players := [("A", 0)],
    objs := [⟨"A", 150, 1⟩] }

theorem c5_move_position_witness :
    ((⟨"A", 100, 23⟩ : Player).move_player 3 25).position = (23 + 3) % 25 ∧
    ∃ st', move_player c5State "A" 3 = Except.ok st' ∧
      st'.objPosition 0 = (23 + 3) % 25 ∧
      ∀ q ∈ st'.objs, 0 ≤ q.position ∧ q.position < 25 := by
  constructor
  · exact c5_move_position.1 ⟨"A", 100, 23⟩ 3 (by decide) (by decide) (by decide)
      (by decide)
  · refine ⟨c5After, rfl, ?_⟩
    exact c5_move_position.2 c5State "A" 3 0 ⟨"A", 100, 23⟩ c5After rfl (by decide)
      (by decide) (by decide) (by decide) (by decide) rfl

/-! ## The landing-phase seam of move_player -/

/-- The mover object as it enters the landing phase of `move_player`:
position updated by `Player.move_player`, and the GO payout credited exactly
when the new position is numerically below the old one. -/
def postGoMover (st : GameState) (player : Player) (n payout : Int) : Player :=
  let pm := player.move_player n (st.gameboard.length : Int)
  if pm.position < player.position then pm.add_account_balance payout else pm

theorem postGoMover_balance (st : GameState) (player : Player) (n payout : Int) :
    (postGoMover st player n payout).account_balance = player.account_balance +
      (if (player.move_player n (st.gameboard.length : Int)).position < player.position
        then payout else 0) := by
  unfold postGoMover
  by_cases hw : (player.move_player n (st.gameboard.length : Int)).position <
      player.position
  · simp [hw]
  · simp [hw]

theorem postGoMover_position (st : GameState) (player : Player) (n payout : Int) :
    (postGoMover st player n payout).position =
      (player.move_player n (st.gameboard.length : Int)).position := by
  unfold postGoMover
  by_cases hw : (player.move_player n (st.gameboard.length : Int)).position <
      player.position
  · simp [hw]
  · simp [hw]

/-- On a board whose index 0 is a GO space, the first half of `move_player`
always succeeds and produces exactly `postGoMover`. -/
theorem movePhase1_eq (st : GameState) (pid : Nat) (player : Player) (n payout : Int)
    (hgo : st.gameboard.get? 0 = some (Space.go payout)) :
    movePhase1 st pid player n =
      Except.ok (st.setObj pid (postGoMover st player n payout),
        postGoMover st player n payout) := by
  simp only [movePhase1, postGoMover]
  by_cases hw : (player.move_player n (st.gameboard.length : Int)).get_position <
      player.get_position
  · rw [if_pos hw]
    simp only [hgo, Space.get_payout_amount]
    rw [if_pos (by simpa using hw)]
  · rw [if_neg hw]
    rw [if_neg (by simpa using hw)]

/-- Under the engine's guards, `move_player` is the landing phase applied to
the state in which the mover has been repositioned and GO-credited. -/
theorem move_player_eq (st : GameState) (name : String) (n : Int) (pid : Nat)
    (player : Player) (payout : Int)
    (hlp : lookupPlayer st name = Except.ok (pid, player))
    (hbal : player.account_balance ≠ 0) (h1 : 1 ≤ n) (h6 : n ≤ 6)
    (hgo : st.gameboard.get? 0 = some (Space.go payout)) :
    move_player st name n =
      settleRent (st.setObj pid (postGoMover st player n payout)) pid
        (postGoMover st player n payout) := by
  unfold move_player
  simp only [hlp]
  rw [if_neg (by simpa using hbal)]
  rw [if_neg (by omega : ¬(n < 1 ∨ n > 6))]
  rw [movePhase1_eq st pid player n payout hgo]

theorem remove_player_gameboard (st : GameState) (pid : Nat) :
    (remove_player st pid).gameboard = st.gameboard.map (clearOwner pid) := by
  cases hob : st.objs.get? pid with
  | none => simp only [remove_player, hob]
  | some p => simp only [remove_player, hob, GameState.setObj_gameboard]

theorem remove_player_objBalance_self {st : GameState} {pid : Nat} {w : Player}
    (hw : st.objs.get? pid = some w) : (remove_player st pid).objBalance pid = 0 := by
  simp only [remove_player, hw]
  have hlt : pid < st.objs.length := (List.get?_eq_some.1 hw).1
  unfold GameState.objBalance
  simp only [GameState.setObj_objs]
  rw [List.get?_set_eq_of_lt _ (by simpa using hlt)]
  show (w.sub_account_balance w.get_account_balance).account_balance = 0
  exact Player.sub_self_balance w

theorem remove_player_objBalance_other {st : GameState} {pid oid : Nat}
    (hne : pid ≠ oid) : (remove_player st pid).objBalance oid = st.objBalance oid := by
  cases hob : st.objs.get? pid with
  | none =>
    simp only [remove_player, hob]
    rfl
  | some p =>
    simp only [remove_player, hob]
    unfold GameState.objBalance
    simp only [GameState.setObj_objs]
    rw [List.get?_set_ne _ _ hne]

/-- The landing phase can only lower the mover's balance, by a non-negative
amount (rent, or the whole balance on bankruptcy); it never credits. -/
theorem settleRent_mover_balance {st st' : GameState} {pid : Nat} {q : Player}
    (hq : st.objs.get? pid = some q)
    (hwf : ∀ sp ∈ st.gameboard, sp.moneyWf)
    (hnn : 0 ≤ q.account_balance)
    (h : settleRent st pid q = Except.ok st') :
    ∃ d : Int, 0 ≤ d ∧ st'.objBalance pid = q.account_balance - d := by
  have hself : st.objBalance pid = q.account_balance := GameState.objBalance_eq st pid q hq
  unfold settleRent at h
  cases hidx : pyIndex st.gameboard q.get_position with
  | none => simp only [hidx] at h; cases h
  | some sp =>
    simp only [hidx] at h
    cases sp with
    | go payout =>
      dsimp only at h
      cases h
      exact ⟨0, le_refl 0, by rw [hself]; ring⟩
    | property rent owner =>
      cases owner with
      | none =>
        dsimp only at h
        cases h
        exact ⟨0, le_refl 0, by rw [hself]; ring⟩
      | some oid =>
        dsimp only at h
        by_cases hop : oid = pid
        · rw [if_pos hop] at h
          cases h
          exact ⟨0, le_refl 0, by rw [hself]; ring⟩
        · rw [if_neg hop] at h
          cases hob : st.objs.get? oid with
          | none => simp only [hob] at h; cases h
          | some ownerObj =>
            simp only [hob] at h
            have hrent : 0 ≤ rent := by
              have hwfsp := hwf _ (pyIndex_mem hidx)
              simpa [Space.moneyWf] using hwfsp
            by_cases hlt : q.get_account_balance < rent
            · rw [if_pos hlt] at h
              cases h
              refine ⟨q.account_balance, hnn, ?_⟩
              have hq2 : (GameState.setObj st oid
                  (ownerObj.add_account_balance q.get_account_balance)).objs.get? pid =
                  some q := by
                simp only [GameState.setObj_objs]
                rw [List.get?_set_ne _ _ (fun hee => hop hee)]
                exact hq
              rw [remove_player_objBalance_self hq2]
              ring
            · rw [if_neg hlt] at h
              cases h
              refine ⟨rent, hrent, ?_⟩
              have hlt2 : pid < st.objs.length := (List.get?_eq_some.1 hq).1
              unfold GameState.objBalance
              simp only [GameState.setObj_objs]
              rw [List.get?_set_eq_of_lt _ (by simpa using hlt2)]
              show (q.sub_account_balance rent).account_balance =
                q.account_balance - rent
              exact Player.sub_balance_of_le q rent (by simpa using hlt)

/-! ## Claim C4 -/

instance (sp : Space) : Decidable sp.moneyWf :=
  match sp with
  | Space.go p => inferInstanceAs (Decidable (0 ≤ p))
  | Space.property r _ => inferInstanceAs (Decidable (0 ≤ r))

/-- C4: a move by a registered, solvent player on a GO-headed board credits
the GO payout to the mover exactly once, precisely when the new position is
numerically below the old one, and the landing phase can only subtract a
non-negative amount from the credited balance — a single move never credits
the payout twice. -/
theorem c4_go_payout_once (st : GameState) (name : String) (n : Int) (pid : Nat)
    (player : Player) (payout : Int) (st' : GameState)
    (hlp : lookupPlayer st name = Except.ok (pid, player))
    (hbal : player.account_balance ≠ 0) (h1 : 1 ≤ n) (h6 : n ≤ 6)
    (hgo : st.gameboard.get? 0 = some (Space.go payout))
    (hwf : ∀ sp ∈ st.gameboard, sp.moneyWf)
    (hnn : 0 ≤ player.account_balance)
    (hsucc : move_player st name n = Except.ok st') :
    (postGoMover st player n payout).account_balance = player.account_balance +
      (if (player.move_player n (st.gameboard.length : Int)).position < player.position
        then payout else 0) ∧
    ∃ d : Int, 0 ≤ d ∧
      st'.objBalance pid = (postGoMover st player n payout).account_balance - d := by
  refine ⟨postGoMover_balance st player n payout, ?_⟩
  rw [move_player_eq st name n pid player payout hlp hbal h1 h6 hgo] at hsucc
  have hob := (lookupPlayer_ok hlp).2
  have hpidlt : pid < st.objs.length := (List.get?_eq_some.1 hob).1
  have hq : (st.setObj pid (postGoMover st player n payout)).objs.get? pid =
      some (postGoMover st player n payout) := by
    simp only [GameState.setObj_objs]
    exact List.get?_set_eq_of_lt _ (by simpa using hpidlt)
  have hpw : 0 ≤ payout := by
    have hwfgo := hwf _ (List.get?_mem hgo)
    simpa [Space.moneyWf] using hwfgo
  have hnn2 : 0 ≤ (postGoMover st player n payout).account_balance := by
    rw [postGoMover_balance]
    split <;> omega
  exact settleRent_mover_balance hq hwf hnn2 hsucc

/-- A wrap scenario for the C4 witness. -/
def c4State : GameState :=
  { gameboard := Space.go 50 :: List.replicate 24 (Space.property 10 none),
    players := [("A", 0)],
    objs := [⟨"A", 100, 23⟩] }

/-- The state after the C4 witness move. -/
def c4After : GameState :=
  { gameboard := Space.go 50 :: List.replicate 24 (Space.property 10 none),
    players := [("A", 0)],
    objs := [⟨"A", 150, 1⟩] }

theorem c4_go_payout_once_witness :
    (postGoMover c4State ⟨"A", 100, 23⟩ 3 50).account_balance = 100 +
      (if ((⟨"A", 100, 23⟩ : Player).move_player 3
          (c4State.gameboard.length : Int)).position < 23 then 50 else 0) ∧
    ∃ d : Int, 0 ≤ d ∧
      c4After.objBalance 0 = (postGoMover c4State ⟨"A", 100, 23⟩ 3 50).account_balance - d :=
  c4_go_payout_once c4State "A" 3 0 ⟨"A", 100, 23⟩ 50 c4After rfl (by decide)
    (by decide) (by decide) rfl (by decide) (by decide) rfl

/-! ## Claim C6 -/

/-- C6: landing on a property owned by another player when the mover's
post-payout balance is at least the rent transfers exactly the rent (mover
debited, owner credited, board untouched); landing on GO, on an unowned
property, or on the mover's own property leaves the state exactly as it was
after the position/GO-payout phase — no balance changes from landing. -/
theorem c6_exact_rent_transfer (st : GameState) (name : String) (n : Int) (pid : Nat)
    (player : Player) (payout : Int)
    (hlp : lookupPlayer st name = Except.ok (pid, player))
    (hbal : player.account_balance ≠ 0) (h1 : 1 ≤ n) (h6 : n ≤ 6)
    (hgo : st.gameboard.get? 0 = some (Space.go payout)) :
    (∀ (rent : Int) (oid : Nat) (ownerObj : Player),
      pyIndex st.gameboard (postGoMover st player n payout).position =
        some (Space.property rent (some oid)) →
      oid ≠ pid → st.objs.get? oid = some ownerObj →
      rent ≤ (postGoMover st player n payout).account_balance →
      ∃ st', move_player st name n = Except.ok st' ∧
        st'.objBalance pid = (postGoMover st player n payout).account_balance - rent ∧
        st'.objBalance oid = ownerObj.account_balance + rent ∧
        st'.gameboard = st.gameboard) ∧
    ∀ sp : Space,
      pyIndex st.gameboard (postGoMover st player n payout).position = some sp →
      (sp.spaceOwner = none ∨ sp.spaceOwner = some pid) →
      move_player st name n =
        Except.ok (st.setObj pid (postGoMover st player n payout)) := by
  have hob := (lookupPlayer_ok hlp).2
  have hpidlt : pid < st.objs.length := (List.get?_eq_some.1 hob).1
  have hmv := move_player_eq st name n pid player payout hlp hbal h1 h6 hgo
  constructor
  · intro rent oid ownerObj hidx hne hoid hle
    rw [hmv]
    unfold settleRent
    simp only [GameState.setObj_gameboard, Player.get_position_def, hidx]
    rw [if_neg (fun hee => hne hee)]
    have hoid2 : (st.setObj pid (postGoMover st player n payout)).objs.get? oid =
        some ownerObj := by
      simp only [GameState.setObj_objs]
      rw [List.get?_set_ne _ _ (fun hee => hne hee.symm)]
      exact hoid
    simp only [hoid2]
    rw [if_neg (by simpa using not_lt.2 hle)]
    refine ⟨_, rfl, ?_, ?_, rfl⟩
    · have hlen2 : pid <
          ((st.setObj pid (postGoMover st player n payout)).setObj oid
            (ownerObj.add_account_balance rent)).objs.length := by
        simp only [GameState.setObj_objs, List.length_set]
        exact hpidlt
      unfold GameState.objBalance
      simp only [GameState.setObj_objs]
      rw [List.get?_set_eq_of_lt _ (by simpa using hpidlt)]
      show ((postGoMover st player n payout).sub_account_balance rent).account_balance =
        (postGoMover st player n payout).account_balance - rent
      exact Player.sub_balance_of_le _ rent hle
    · have hoidlt : oid < st.objs.length := (List.get?_eq_some.1 hoid).1
      unfold GameState.objBalance
      simp only [GameState.setObj_objs]
      rw [List.get?_set_ne _ _ (fun hee => hne hee.symm)]
      rw [List.get?_set_eq_of_lt _
        (by simp only [List.length_set]; simpa using hoidlt)]
      rfl
  · intro sp hidx hsp
    rw [hmv]
    unfold settleRent
    simp only [GameState.setObj_gameboard, Player.get_position_def, hidx]
    cases sp with
    | go q => rfl
    | property rent owner =>
      simp only [Space.spaceOwner] at hsp
      cases owner with
      | none => rfl
      | some oid =>
        rcases hsp with hsp | hsp
        · cases hsp
        · dsimp only
          rw [if_pos (Option.some.inj hsp)]

/-- A rent-collection scenario for the C6 witness: "B" lands on "A"'s
property of rent 10. -/
def c6State : GameState :=
  { gameboard := Space.go 50 :: Space.property 10 (some 0) ::
      List.replicate 23 (Space.property 10 none),
    players := [("A", 0), ("B", 1)],
    objs := [⟨"A", 50, 1⟩, ⟨"B", 100, 0⟩] }

theorem c6_exact_rent_transfer_witness :
    ∃ st', move_player c6State "B" 1 = Except.ok st' ∧
      st'.objBalance 1 = (postGoMover c6State ⟨"B", 100, 0⟩ 1 50).account_balance - 10 ∧
      st'.objBalance 0 = 50 + 10 ∧
      st'.gameboard = c6State.gameboard :=
  (c6_exact_rent_transfer c6State "B" 1 1 ⟨"B", 100, 0⟩ 50 rfl (by decide)
    (by decide) (by decide) rfl).1 10 0 ⟨"A", 50, 1⟩ rfl (by decide) rfl (by decide)

/-! ## Claim C2 -/

theorem pyIndex_map (l : List α) (f : α → β) (i : Int) :
    pyIndex (l.map f) i = (pyIndex l i).map f := by
  unfold pyIndex
  rw [List.length_map]
  split
  · rw [List.get?_map]
  · split
    · rw [List.get?_map]
    · rfl

theorem clearOwner_owned (pid : Nat) (r : Int) :
    clearOwner pid (Space.property r (some pid)) = Space.property r none := by
  simp [clearOwner]

theorem clearOwner_not_pid (pid : Nat) (sp : Space) :
    (clearOwner pid sp).spaceOwner ≠ some pid := by
  cases sp with
  | go q => simp [clearOwner, Space.spaceOwner]
  | property r owner =>
    cases owner with
    | none => simp [clearOwner, Space.spaceOwner]
    | some oid =>
      by_cases hoid : oid = pid
      · simp [clearOwner, hoid, Space.spaceOwner]
      · simp [clearOwner, hoid, Space.spaceOwner]

/-- C2: landing on another player's property with post-payout balance
strictly below the rent is a forced liquidation: the owner gains exactly the
mover's whole remaining balance, the mover's balance becomes exactly 0, every
property the mover owned is reset to unowned (same rent, owner cleared, not
transferred), and afterwards no space on the board is owned by the mover. -/
theorem c2_bankruptcy_liquidation (st : GameState) (name : String) (n : Int)
    (pid : Nat) (player : Player) (payout : Int) (rent : Int) (oid : Nat)
    (ownerObj : Player)
    (hlp : lookupPlayer st name = Except.ok (pid, player))
    (hbal : player.account_balance ≠ 0) (h1 : 1 ≤ n) (h6 : n ≤ 6)
    (hgo : st.gameboard.get? 0 = some (Space.go payout))
    (hidx : pyIndex st.gameboard (postGoMover st player n payout).position =
      some (Space.property rent (some oid)))
    (hne : oid ≠ pid) (hoid : st.objs.get? oid = some ownerObj)
    (hlt : (postGoMover st player n payout).account_balance < rent) :
    ∃ st', move_player st name n = Except.ok st' ∧
      st'.objBalance pid = 0 ∧
      st'.objBalance oid = ownerObj.account_balance +
        (postGoMover st player n payout).account_balance ∧
      (∀ (j : Int) (r : Int),
        pyIndex st.gameboard j = some (Space.property r (some pid)) →
        pyIndex st'.gameboard j = some (Space.property r none)) ∧
      ∀ sp ∈ st'.gameboard, sp.spaceOwner ≠ some pid := by
  have hob := (lookupPlayer_ok hlp).2
  have hpidlt : pid < st.objs.length := (List.get?_eq_some.1 hob).1
  have hoidlt : oid < st.objs.length := (List.get?_eq_some.1 hoid).1
  have hmv := move_player_eq st name n pid player payout hlp hbal h1 h6 hgo
  rw [hmv]
  unfold settleRent
  simp only [GameState.setObj_gameboard, Player.get_position_def, hidx]
  rw [if_neg (fun hee => hne hee)]
  have hoid2 : (st.setObj pid (postGoMover st player n payout)).objs.get? oid =
      some ownerObj := by
    simp only [GameState.setObj_objs]
    rw [List.get?_set_ne _ _ (fun hee => hne hee.symm)]
    exact hoid
  simp only [hoid2]
  rw [if_pos (by simpa using hlt)]
  refine ⟨_, rfl, ?_, ?_, ?_, ?_⟩
  · exact @remove_player_objBalance_self _ pid (postGoMover st player n payout) (by
      simp only [GameState.setObj_objs]
      rw [List.get?_set_ne _ _ hne]
      exact List.get?_set_eq_of_lt _ (by simpa using hpidlt))
  · rw [remove_player_objBalance_other (fun hee => hne hee.symm)]
    unfold GameState.objBalance
    simp only [GameState.setObj_objs]
    rw [List.get?_set_eq_of_lt _
      (by simp only [List.length_set]; simpa using hoidlt)]
    rfl
  · intro j r hj
    rw [remove_player_gameboard]
    simp only [GameState.setObj_gameboard]
    rw [pyIndex_map, hj]
    rw [Option.map_some']
    rw [clearOwner_owned]
  · intro sp hsp
    rw [remove_player_gameboard] at hsp
    simp only [GameState.setObj_gameboard] at hsp
    rcases List.mem_map.1 hsp with ⟨sp0, -, rfl⟩
    exact clearOwner_not_pid pid sp0

/-- A liquidation scenario for the C2 witness: "C" (balance 5, owning the
rent-7 space) lands on "A"'s rent-10 property. -/
def c2State : GameState :=
  { gameboard := Space.go 50 :: Space.property 10 (some 0) ::
      Space.property 7 (some 1) :: List.replicate 22 (Space.property 10 none),
    players := [("A", 0), ("C", 1)],
    objs := [⟨"A", 60, 1⟩, ⟨"C", 5, 0⟩] }

theorem c2_bankruptcy_liquidation_witness :
    ∃ st', move_player c2State "C" 1 = Except.ok st' ∧
      st'.objBalance 1 = 0 ∧
      st'.objBalance 0 = 60 + (postGoMover c2State ⟨"C", 5, 0⟩ 1 50).account_balance ∧
      pyIndex st'.gameboard 2 = some (Space.property 7 none) ∧
      ∀ sp ∈ st'.gameboard, sp.spaceOwner ≠ some 1 := by
  obtain ⟨st', hrun, hzero, hown, hvac, hnone⟩ :=
    c2_bankruptcy_liquidation c2State "C" 1 1 ⟨"C", 5, 0⟩ 50 10 0 ⟨"A", 60, 1⟩
      rfl (by decide) (by decide) (by decide) rfl rfl (by decide) rfl (by decide)
  exact ⟨st', hrun, hzero, hown, hvac 2 7 rfl, hnone⟩

/-! ## Claim C10 -/

/-- Sum of the balances of all player objects ever created, including
objects that a later `create_player` overwrite has disconnected from the
registry. -/
def totalBalance (st : GameState) : Int :=
  (st.objs.map Player.account_balance).sum

/-- Sum of the balances of the currently registered players — the quantity
the claim as stated speaks about. -/
def regBalanceSum (st : GameState) : Int :=
  (st.players.map (fun e => st.objBalance e.2)).sum

theorem map_sum_set (l : List α) (i : Nat) (v w : α) (f : α → Int)
    (h : l.get? i = some w) :
    ((l.set i v).map f).sum = (l.map f).sum - f w + f v := by
  induction l generalizing i with
  | nil => cases h
  | cons x xs ih =>
    cases i with
    | zero =>
      cases h
      simp only [List.set, List.map_cons, List.sum_cons]
      ring
    | succ j =>
      simp only [List.set, List.map_cons, List.sum_cons, ih j h]
      ring

theorem totalBalance_setObj {st : GameState} {pid : Nat} {w : Player} (v : Player)
    (h : st.objs.get? pid = some w) :
    totalBalance (st.setObj pid v) =
      totalBalance st - w.account_balance + v.account_balance := by
  unfold totalBalance
  simp only [GameState.setObj_objs]
  exact map_sum_set st.objs pid v w Player.account_balance h

theorem totalBalance_remove_player {st : GameState} {pid : Nat} {w : Player}
    (h : st.objs.get? pid = some w) :
    totalBalance (remove_player st pid) = totalBalance st - w.account_balance := by
  simp only [remove_player, h]
  show totalBalance (st.setObj pid (w.sub_account_balance w.get_account_balance)) =
    totalBalance st - w.account_balance
  rw [totalBalance_setObj _ h]
  simp only [Player.get_account_balance_def, Player.sub_self_balance]
  ring

/-- The landing phase conserves the total money across all player objects:
rent and liquidation only move balances between the mover and the owner
object. -/
theorem settleRent_total {st st' : GameState} {pid : Nat} {q : Player}
    (hq : st.objs.get? pid = some q)
    (h : settleRent st pid q = Except.ok st') :
    totalBalance st' = totalBalance st := by
  unfold settleRent at h
  cases hidx : pyIndex st.gameboard q.get_position with
  | none => simp only [hidx] at h; cases h
  | some sp =>
    simp only [hidx] at h
    cases sp with
    | go payout =>
      dsimp only at h
      cases h
      rfl
    | property rent owner =>
      cases owner with
      | none =>
        dsimp only at h
        cases h
        rfl
      | some oid =>
        dsimp only at h
        by_cases hop : oid = pid
        · rw [if_pos hop] at h
          cases h
          rfl
        · rw [if_neg hop] at h
          cases hob : st.objs.get? oid with
          | none => simp only [hob] at h; cases h
          | some ownerObj =>
            simp only [hob] at h
            by_cases hlt : q.get_account_balance < rent
            · rw [if_pos hlt] at h
              cases h
              have hq2 : (st.setObj oid
                  (ownerObj.add_account_balance q.get_account_balance)).objs.get? pid =
                  some q := by
                simp only [GameState.setObj_objs]
                rw [List.get?_set_ne _ _ hop]
                exact hq
              rw [totalBalance_remove_player hq2, totalBalance_setObj _ hob]
              simp only [Player.add_balance, Player.get_account_balance_def]
              ring
            · rw [if_neg hlt] at h
              cases h
              have hq2 : (st.setObj oid (ownerObj.add_account_balance rent)).objs.get? pid =
                  some q := by
                simp only [GameState.setObj_objs]
                rw [List.get?_set_ne _ _ hop]
                exact hq
              rw [totalBalance_setObj _ hq2, totalBalance_setObj _ hob]
              rw [Player.sub_balance_of_le q rent (by simpa using hlt)]
              simp only [Player.add_balance]
              ring

/-- C10 (amended): a guarded move changes the sum of the balances of all
player objects ever created by exactly the GO payout when a wrap occurs and
by exactly 0 otherwise; rent transfer and bankruptcy liquidation conserve
that total.  (Over the registered players only, the original claim fails:
see the counterexample.) -/
theorem c10_total_money (st : GameState) (name : String) (n : Int) (pid : Nat)
    (player : Player) (payout : Int) (st' : GameState)
    (hlp : lookupPlayer st name = Except.ok (pid, player))
    (hbal : player.account_balance ≠ 0) (h1 : 1 ≤ n) (h6 : n ≤ 6)
    (hgo : st.gameboard.get? 0 = some (Space.go payout))
    (hsucc : move_player st name n = Except.ok st') :
    totalBalance st' = totalBalance st +
      (if (player.move_player n (st.gameboard.length : Int)).position < player.position
        then payout else 0) := by
  have hob := (lookupPlayer_ok hlp).2
  have hpidlt : pid < st.objs.length := (List.get?_eq_some.1 hob).1
  rw [move_player_eq st name n pid player payout hlp hbal h1 h6 hgo] at hsucc
  have hq : (st.setObj pid (postGoMover st player n payout)).objs.get? pid =
      some (postGoMover st player n payout) := by
    simp only [GameState.setObj_objs]
    exact List.get?_set_eq_of_lt _ (by simpa using hpidlt)
  rw [settleRent_total hq hsucc, totalBalance_setObj _ hob, postGoMover_balance]
  ring

/-- A state for the C10 witness: "B" lands on "A"'s property and pays 10
rent; the object total is unchanged (no wrap). -/
def c10WitState : GameState :=
  { gameboard := Space.go 50 :: Space.property 10 (some 0) ::
      List.replicate 23 (Space.property 10 none),
    players := [("A", 0), ("B", 1)],
    objs := [⟨"A", 50, 1⟩, ⟨"B", 100, 0⟩] }

/-- The state after the C10 witness move. -/
def c10WitAfter : GameState :=
  { gameboard := Space.go 50 :: Space.property 10 (some 0) ::
      List.replicate 23 (Space.property 10 none),
    players := [("A", 0), ("B", 1)],
    objs := [⟨"A", 60, 1⟩, ⟨"B", 90, 1⟩] }

theorem c10_total_money_witness :
    totalBalance c10WitAfter = totalBalance c10WitState +
      (if ((⟨"B", 100, 0⟩ : Player).move_player 1
          (c10WitState.gameboard.length : Int)).position < 0 then 50 else 0) :=
  c10_total_money c10WitState "B" 1 1 ⟨"B", 100, 0⟩ 50 c10WitAfter rfl
    (by decide) (by decide) (by decide) rfl rfl

/-- Trace for the C10 counterexample: "A" buys a property, then the name
"A" is overwritten by a fresh object, stranding the old object as owner. -/
def c10CxOps : List Op :=
  [Op.createSpaces 0 (List.replicate 24 1),
   Op.createPlayer "A" 10, Op.movePlayer "A" 1, Op.buySpace "A",
   Op.createPlayer "A" 20, Op.createPlayer "B" 7]

/-- C10 counterexample: in the reachable state built by `c10CxOps`, the
registered player "B" (nonzero balance) moves 1 space without wrapping
(position 0 to 1), yet the sum of the registered players' balances drops
from 27 to 26: the rent goes to the overwritten, unregistered old "A"
object.  The claim as stated (registered sum changes by 0 when no wrap
occurs) is false here. -/
theorem c10_counterexample :
    Reachable (runOps initialState c10CxOps) ∧
    dictLookup (runOps initialState c10CxOps).players "B" = some 2 ∧
    (runOps initialState c10CxOps).objBalance 2 = 7 ∧
    (runOps initialState c10CxOps).objPosition 2 = 0 ∧
    move_player (runOps initialState c10CxOps) "B" 1 =
      Except.ok (runOps initialState (c10CxOps ++ [Op.movePlayer "B" 1])) ∧
    (runOps initialState (c10CxOps ++ [Op.movePlayer "B" 1])).objPosition 2 = 1 ∧
    regBalanceSum (runOps initialState c10CxOps) = 27 ∧
    regBalanceSum (runOps initialState (c10CxOps ++ [Op.movePlayer "B" 1])) = 26 := by
  refine ⟨reachable_runOps c10CxOps Reachable.base (by decide),
    by decide, by decide, by decide, rfl, by decide, by decide, by decide⟩

/-! ## Claim C8 -/

/-- Every set owner reference on the board denotes a player object that was
actually created at some point (a valid index into the object universe). -/
def OwnersValid (st : GameState) : Prop :=
  ∀ sp ∈ st.gameboard, ∀ oid : Nat, sp.spaceOwner = some oid → oid < st.objs.length

theorem clearOwner_spaceOwner {pid : Nat} {sp : Space} {oid : Nat}
    (h : (clearOwner pid sp).spaceOwner = some oid) : sp.spaceOwner = some oid := by
  cases sp with
  | go q => simpa [clearOwner, Space.spaceOwner] using h
  | property r owner =>
    cases owner with
    | none => simpa [clearOwner, Space.spaceOwner] using h
    | some k =>
      by_cases hk : k = pid
      · simp [clearOwner, hk, Space.spaceOwner] at h
      · simpa [clearOwner, hk, Space.spaceOwner] using h

theorem OV_create_spaces {st st' : GameState} {payout : Int} {rents : List Int}
    (h : create_spaces st payout rents = Except.ok st') (hov : OwnersValid st) :
    OwnersValid st' := by
  unfold create_spaces at h
  split at h
  · cases h
  · cases h
    intro sp hsp oid ho
    rcases List.mem_append.1 hsp with hsp | hsp
    · exact hov sp hsp oid ho
    · rcases List.mem_cons.1 hsp with rfl | hsp
      · simp [Space.spaceOwner] at ho
      · rcases List.mem_map.1 hsp with ⟨r, -, rfl⟩
        simp [Space.spaceOwner] at ho

theorem OV_create_player {st : GameState} (name : String) (balance : Int)
    (hov : OwnersValid st) : OwnersValid (create_player st name balance) := by
  unfold create_player
  split
  · exact hov
  · intro sp hsp oid ho
    have := hov sp hsp oid ho
    simp only [List.length_append, List.length_cons, List.length_nil]
    omega

theorem OV_remove_player {st : GameState} (pid : Nat) (hov : OwnersValid st) :
    OwnersValid (remove_player st pid) := by
  intro sp hsp oid ho
  rw [remove_player_gameboard] at hsp
  rcases List.mem_map.1 hsp with ⟨sp0, hsp0, rfl⟩
  have hleneq : (remove_player st pid).objs.length = st.objs.length := by
    cases hob : st.objs.get? pid with
    | none => simp only [remove_player, hob]
    | some p => simp only [remove_player, hob, GameState.setObj_objs, List.length_set]
  rw [hleneq]
  exact hov sp0 hsp0 oid (clearOwner_spaceOwner ho)

theorem OV_buy_space {st st' : GameState} {name : String} {b : Bool}
    (h : buy_space st name = Except.ok (b, st')) (hov : OwnersValid st) :
    OwnersValid st' := by
  unfold buy_space at h
  cases hlp : lookupPlayer st name with
  | error e => simp only [hlp] at h; cases h
  | ok pp =>
    obtain ⟨pid, player⟩ := pp
    have hpidlt : pid < st.objs.length := (List.get?_eq_some.1 (lookupPlayer_ok hlp).2).1
    simp only [hlp] at h
    cases hidx : pyIndex st.gameboard player.get_position with
    | none => simp only [hidx] at h; cases h
    | some sp =>
      simp only [hidx] at h
      cases sp with
      | go payout =>
        dsimp only at h
        cases h
        exact hov
      | property rent owner =>
        cases owner with
        | some oid =>
          dsimp only at h
          cases h
          exact hov
        | none =>
          dsimp only at h
          split at h
          · cases h
            intro sp hsp oid ho
            simp only [GameState.setObj_gameboard] at hsp
            simp only [GameState.setObj_objs, List.length_set]
            rcases pySet_mem hsp with hsp | rfl
            · exact hov sp hsp oid ho
            · simp only [Space.spaceOwner] at ho
              cases ho
              exact hpidlt
          · cases h
            exact hov

theorem OV_settleRent {st st' : GameState} {pid : Nat} {q : Player}
    (h : settleRent st pid q = Except.ok st') (hov : OwnersValid st) :
    OwnersValid st' := by
  have hset : ∀ (i : Nat) (v : Player), OwnersValid (st.setObj i v) := by
    intro i v sp hsp oid ho
    simp only [GameState.setObj_gameboard] at hsp
    simp only [GameState.setObj_objs, List.length_set]
    exact hov sp hsp oid ho
  unfold settleRent at h
  cases hidx : pyIndex st.gameboard q.get_position with
  | none => simp only [hidx] at h; cases h
  | some sp =>
    simp only [hidx] at h
    cases sp with
    | go payout =>
      dsimp only at h
      cases h
      exact hov
    | property rent owner =>
      cases owner with
      | none =>
        dsimp only at h
        cases h
        exact hov
      | some oid =>
        dsimp only at h
        by_cases hop : oid = pid
        · rw [if_pos hop] at h
          cases h
          exact hov
        · rw [if_neg hop] at h
          cases hob : st.objs.get? oid with
          | none => simp only [hob] at h; cases h
          | some ownerObj =>
            simp only [hob] at h
            by_cases hlt : q.get_account_balance < rent
            · rw [if_pos hlt] at h
              cases h
              exact OV_remove_player pid (hset oid _)
            · rw [if_neg hlt] at h
              cases h
              intro sp hsp k ho
              simp only [GameState.setObj_gameboard] at hsp
              simp only [GameState.setObj_objs, List.length_set]
              exact hov sp hsp k ho

theorem OV_move_player {st st' : GameState} {name : String} {n : Int}
    (h : move_player st name n = Except.ok st') (hov : OwnersValid st) :
    OwnersValid st' := by
  unfold move_player at h
  cases hlp : lookupPlayer st name with
  | error e => simp only [hlp] at h; cases h
  | ok pp =>
    obtain ⟨pid, player⟩ := pp
    simp only [hlp] at h
    split at h
    · cases h; exact hov
    · split at h
      · cases h; exact hov
      · cases hph : movePhase1 st pid player n with
        | error e => simp only [hph] at h; cases h
        | ok st1m =>
          simp only [hph] at h
          obtain ⟨st1, moved⟩ := st1m
          obtain ⟨-, hgb, hobjs, -⟩ := movePhase1_positions hph
          have hov1 : OwnersValid st1 := by
            intro sp hsp oid ho
            rw [hgb] at hsp
            rw [hobjs, List.length_set]
            exact hov sp hsp oid ho
          exact OV_settleRent h hov1

theorem OV_applyOp {st st' : GameState} {op : Op}
    (h : applyOp st op = Except.ok st') (hov : OwnersValid st) : OwnersValid st' := by
  cases op with
  | createSpaces payout rents => exact OV_create_spaces h hov
  | createPlayer name balance =>
    cases h
    exact OV_create_player name balance hov
  | buySpace name =>
    unfold applyOp at h
    cases hbs : buy_space st name with
    | error e => simp only [hbs] at h; cases h
    | ok bs =>
      simp only [hbs] at h
      cases h
      exact OV_buy_space hbs hov
  | movePlayer name n => exact OV_move_player h hov
  | removePlayer pid =>
    cases h
    exact OV_remove_player pid hov

/-- C8 (amended): in every reachable state, each property space has at most
one owner (its `_owner` is a single optional reference, as in the source)
and every set owner is a valid reference to a player object created by
`create_player`; the original claim's stronger demands — that the owner also
be currently registered and have nonzero balance — do not hold on the code
(see the counterexample). -/
theorem c8_owner_validity (st : GameState) (h : Reachable st) : OwnersValid st := by
  induction h with
  | base => intro sp hsp; cases hsp
  | step hr hwf happ ih => exact OV_applyOp happ ih

/-- Trace for the C8 witness: "A" buys the first property. -/
def c8WitOps : List Op :=
  [Op.createSpaces 50 (List.replicate 24 10),
   Op.createPlayer "A" 100, Op.movePlayer "A" 1, Op.buySpace "A"]

theorem c8_owner_validity_witness : OwnersValid (runOps initialState c8WitOps) :=
  c8_owner_validity (runOps initialState c8WitOps)
    (reachable_runOps c8WitOps Reachable.base (by decide))

/-- Trace for the C8 counterexample: the registered name "A" is overwritten
while the old object owns space 1, and "C" ends with balance 0 while still
owning space 3. -/
def c8CxOps : List Op :=
  [Op.createSpaces 0 (2 :: 1 :: 4 :: List.replicate 21 1),
   Op.createPlayer "A" 11, Op.movePlayer "A" 1, Op.buySpace "A",
   Op.createPlayer "A" 20, Op.createPlayer "B" 100,
   Op.movePlayer "B" 4, Op.buySpace "B",
   Op.createPlayer "C" 21, Op.movePlayer "C" 3, Op.buySpace "C",
   Op.movePlayer "C" 1]

/-- C8 counterexample: in the reachable state built by `c8CxOps`, space 1 is
owned by object 0, which is registered under no name (the registry binds
"A" to object 1, "B" to 2, "C" to 3), and space 3 is owned by object 3,
which is registered as "C" but has balance exactly 0 — so a set owner is
neither necessarily currently registered nor necessarily non-bankrupt. -/
theorem c8_counterexample :
    Reachable (runOps initialState c8CxOps) ∧
    (runOps initialState c8CxOps).players = [("A", 1), ("B", 2), ("C", 3)] ∧
    pyIndex (runOps initialState c8CxOps).gameboard 1 =
      some (Space.property 2 (some 0)) ∧
    pyIndex (runOps initialState c8CxOps).gameboard 3 =
      some (Space.property 4 (some 3)) ∧
    dictLookup (runOps initialState c8CxOps).players "C" = some 3 ∧
    (runOps initialState c8CxOps).objBalance 3 = 0 :=
  ⟨reachable_runOps c8CxOps Reachable.base (by decide),
    by decide, by decide, by decide, by decide, by decide⟩

end REG
